import Mathlib

/-!
Verification of the yaml-viz template-to-form mapping logic.

The Python sources embedded here are `src/form_generator.py` (class
FormGenerator), `src/export_utils.py` (class ExportUtils) and, where it
diverges from FormGenerator, `src/app.py` (class DynamicFormGenerator).

Embedding conventions:
* A parsed YAML document is the inductive `Yaml`.  Python dicts are ordered
  association lists `List (String × Yaml)` (insertion order preserved, keys
  unique in every dict the interpreter actually builds); mapping keys are
  strings, matching the spec's data model ("a parsed mapping from string
  keys to values").
* Python floats are carried opaquely as their decimal rendering (`Yaml.float`
  holds a `String`): the embedded code never computes with numbers, it only
  stores and reprints them.
* Streamlit widgets are an external collaborator: a `Widgets` record supplies,
  for each widget kind, the value the user's edit yields on the next pass.
* A Python function that can raise returns `Except Unit`; `.error ()` stands
  for an uncaught exception (e.g. TypeError from iterating a non-iterable).
-/

/-- A parsed YAML value as PyYAML's `safe_load` yields it: strings, booleans,
integers, floats (carried as their decimal rendering, see module comment),
sequences, and string-keyed mappings as ordered association lists. -/
inductive Yaml where
  | str (s : String)
  | bool (b : Bool)
  | int (n : Int)
  | float (frep : String)
  | list (items : List Yaml)
  | map (entries : List (String × Yaml))

/-- The form state `self.form_data`: a Python dict from field key to value,
in insertion order. -/
abbrev FormData := List (String × Yaml)

/-- Python dict assignment `d[k] = v`: overwrite in place if `k` is present,
else append at the end. -/
def dictInsert (k : String) (v : Yaml) : FormData → FormData
  | [] => [(k, v)]
  | (k', v') :: rest => if k' = k then (k, v) :: rest else (k', v') :: dictInsert k v rest

/-- Python `d.pop(k)` (with presence test): the value bound to `k`, if any,
and the dict with that binding removed. -/
def dictPop (k : String) : FormData → Option Yaml × FormData
  | [] => (none, [])
  | (k', v') :: rest =>
    if k' = k then (some v', rest)
    else
      let r := dictPop k rest
      (r.1, (k', v') :: r.2)

/-- Python `d[k]` / `k in d` as a lookup: the first (hence, in a real dict,
the only) binding of `k`. -/
def keyLookup (k : String) : FormData → Option Yaml
  | [] => none
  | (k', v') :: rest => if k' = k then some v' else keyLookup k rest

/-- `isinstance(v, dict)` -/
def isMapY : Yaml → Bool
  | .map _ => true
  | _ => false

/-- `isinstance(v, str)` -/
def isStrY : Yaml → Bool
  | .str _ => true
  | _ => false

/-- `isinstance(v, list)`, extracting the elements. -/
def getListY : Yaml → Option (List Yaml)
  | .list l => some l
  | _ => none

/-- The string payload of a `Yaml.str`. -/
def getStr : Yaml → Option String
  | .str s => some s
  | _ => none

/-- The mutable fields of a `FormGenerator` instance
(`src/form_generator.py`, `__init__`, lines 13-17). -/
structure GenState where
  template : Option Yaml
  root_key : Option String
  key_order : List String
  form_data : FormData

/-- A fresh `FormGenerator()`. -/
def initState : GenState :=
  { template := none, root_key := none, key_order := [], form_data := [] }

/-- `FormGenerator.load_template` (`src/form_generator.py` lines 19-39),
as a function of the outcome of `yaml.safe_load(content)`: `.error ()` is a
raised `yaml.YAMLError` (the assignment to `self.template` never happens),
`.ok v` is a successful parse.  Returns the boolean result together with the
updated instance state.  Note the order of operations in the source: the
parse result is stored into `self.template` before the `isinstance(dict)`
check, so a non-mapping parse result is stored even though the call fails. -/
def load_template (parsed : Except Unit Yaml) (st : GenState) : Bool × GenState :=
  match parsed with
  | .error _ => (false, st)
  | .ok v =>
    let st1 : GenState := { st with template := some v }
    match v with
    | .map m =>
      match m with
      | [(k, .map inner)] =>
        (true, { st1 with root_key := some k, key_order := inner.map Prod.fst })
      | _ =>
        (true, { st1 with root_key := none, key_order := m.map Prod.fst })
    | _ => (false, st1)

/-- C4, sanity: single-key wrapper detected. -/
example :
    load_template (.ok (.map [("Project", .map [("name", .str "Demo"), ("version", .int 1)])]))
      initState =
      (true,
        { template := some (.map [("Project", .map [("name", .str "Demo"), ("version", .int 1)])]),
          root_key := some "Project", key_order := ["name", "version"], form_data := [] }) := by
  rfl

/-- C2, sanity: non-mapping parse overwrites the stored template. -/
example :
    (load_template (.ok (.list [.str "item1"]))
      { initState with template := some (.map [("a", .int 1)]) }).2.template =
      some (.list [.str "item1"]) := by
  rfl

/-- Python truthiness of a parsed YAML value (`if not self.template:` and
friends).  The float case approximates CPython's nonzero test on the decimal
renderings that occur here; no theorem below depends on it. -/
def pyTruthy : Yaml → Bool
  | .str s => s != ""
  | .bool b => b
  | .int n => n != 0
  | .float r => !(r == "0.0" || r == "-0.0")
  | .list l => !l.isEmpty
  | .map m => !m.isEmpty

mutual

/-- Python `repr` of a parsed YAML value, as `str()` falls back to it for
containers.  String payloads are rendered between single quotes without
escape handling: no theorem in this file applies it to strings containing
quotes or backslashes. -/
def pyRepr : Yaml → String
  | .str s => "'" ++ s ++ "'"
  | .bool true => "True"
  | .bool false => "False"
  | .int n => toString n
  | .float r => r
  | .list l => "[" ++ pyReprList l ++ "]"
  | .map m => "\x7b" ++ pyReprEntries m ++ "\x7d"

/-- Comma-separated reprs of a list's elements. -/
def pyReprList : List Yaml → String
  | [] => ""
  | [v] => pyRepr v
  | v :: rest => pyRepr v ++ ", " ++ pyReprList rest

/-- Comma-separated reprs of a dict's entries. -/
def pyReprEntries : List (String × Yaml) → String
  | [] => ""
  | [(k, v)] => "'" ++ k ++ "': " ++ pyRepr v
  | (k, v) :: rest => "'" ++ k ++ "': " ++ pyRepr v ++ ", " ++ pyReprEntries rest

end

/-- Python `str()` of a parsed YAML value: identity on strings, `repr`
otherwise. -/
def pyStr : Yaml → String
  | .str s => s
  | v => pyRepr v

/-- Python `str.title()` restricted to ASCII letters: the first letter of
each alphabetic run is uppercased, the rest lowercased. -/
def pyTitleAux : Bool → List Char → List Char
  | _, [] => []
  | prevAlpha, c :: cs =>
    if c.isAlpha then (if prevAlpha then c.toLower else c.toUpper) :: pyTitleAux true cs
    else c :: pyTitleAux false cs

/-- `key.replace("_", " ").title()` (`src/form_generator.py` line 57): the
field label shown next to each widget. -/
def labelOf (key : String) : String :=
  String.mk (pyTitleAux false (key.replace "_" " ").data)

/-- `FormGenerator._is_category_structure` (`src/form_generator.py` lines
124-129): at least two of the mapping's values are lists, and some such list
is non-empty with a dict bearing a "name" key as its first element. -/
def _is_category_structure (m : List (String × Yaml)) : Bool :=
  let list_values := (m.map Prod.snd).filterMap getListY
  decide (2 ≤ list_values.length) &&
    list_values.any (fun arr =>
      !arr.isEmpty &&
        (match arr.head? with
         | some (.map mm) => (keyLookup "name" mm).isSome
         | _ => false))

/-- `FormGenerator._format_tab_name` (lines 131-133):
`name.split("(")[0].strip()`. -/
def _format_tab_name (name : String) : String :=
  (String.mk (name.data.takeWhile (· ≠ '('))).trim

/-- `FormGenerator._format_item_display` (lines 135-140): "name (code)" when
both keys exist, else "name", else `str(item)`. -/
def _format_item_display (item : Yaml) : String :=
  match item with
  | .map m =>
    match keyLookup "name" m with
    | some nameVal =>
      let codeSuffix :=
        match keyLookup "code" m with
        | some codeVal => " (" ++ pyStr codeVal ++ ")"
        | none => ""
      pyStr nameVal ++ codeSuffix
    | none => pyStr item
  | _ => pyStr item

/-- The inner `for item in original_items: if ... == display_str: ...; break`
loop of `_map_display_to_objects`: the first item whose formatted label is
the display string. -/
def _find_first_match (d : String) : List Yaml → Option Yaml
  | [] => none
  | it :: rest => if _format_item_display it = d then some it else _find_first_match d rest

/-- `FormGenerator._map_display_to_objects` (lines 142-160): for each selected
display string, append the first original item whose formatted label matches
exactly; display strings with no match contribute nothing. -/
def _map_display_to_objects (selected_displays : List String) (original_items : List Yaml) :
    List Yaml :=
  if selected_displays.isEmpty then []
  else
    selected_displays.foldl
      (fun acc d =>
        match _find_first_match d original_items with
        | some it => acc ++ [it]
        | none => acc)
      []

/-- Python iteration `for item in v`: a list yields its elements, a dict its
keys, a string its characters (as length-1 strings); iterating any other
value raises TypeError (`none`). -/
def pythonIterate : Yaml → Option (List Yaml)
  | .list l => some l
  | .map m => some (m.map (fun p => Yaml.str p.1))
  | .str s => some (s.data.map (fun c => Yaml.str (String.mk [c])))
  | _ => none

/-- The widget collaborator: for each Streamlit input widget, the value the
user's edit yields on the current render pass.  Arguments are label, current
(default) value, widget key — as passed at the call sites in
`src/form_generator.py`. -/
structure Widgets where
  text_input : String → String → String → String
  checkbox : String → Bool → String → Bool
  number_input_int : String → Int → String → Int
  number_input_float : String → String → String → String
  multiselect : String → List String → String → List String

/-- The `for i, (cat_key, items) in enumerate(value.items())` loop of
`FormGenerator._render_category_tabs` (lines 95-106), accumulating
`category_data`: per category a multiselect over the formatted items, and for
a non-empty selection the original objects recovered by
`_map_display_to_objects`.  Iterating a non-iterable `items` raises. -/
def _render_category_entries (w : Widgets) (key : String) :
    List (String × Yaml) → FormData → Except Unit FormData
  | [], category_data => .ok category_data
  | (cat_key, items) :: rest, category_data =>
    match pythonIterate items with
    | none => .error ()
    | some itemsList =>
      let options := itemsList.map _format_item_display
      let selected := w.multiselect ("Select from " ++ _format_tab_name cat_key) options
        ("cat_" ++ key ++ "_" ++ cat_key)
      if selected.isEmpty then _render_category_entries w key rest category_data
      else
        _render_category_entries w key rest
          (dictInsert cat_key (.list (_map_display_to_objects selected itemsList)) category_data)

/-- `FormGenerator._render_category_tabs` (lines 89-109): build
`category_data` over all tabs, then store it under `key` only when
non-empty. -/
def _render_category_tabs (w : Widgets) (key : String) (value : List (String × Yaml))
    (fd : FormData) : Except Unit FormData :=
  match _render_category_entries w key value [] with
  | .error e => .error e
  | .ok category_data =>
    .ok (if category_data.isEmpty then fd else dictInsert key (.map category_data) fd)

mutual

/-- `FormGenerator._render_field` (`src/form_generator.py` lines 55-87):
type dispatch over the template value.  A string field stores its edited text
only when non-empty; checkbox and number fields always store; a list of
strings renders a multiselect whose non-empty selection is stored; a mapping
renders category tabs or a nested panel.  A list with a non-string element
matches no branch and stores nothing. -/
def _render_field (w : Widgets) : String → Yaml → FormData → Except Unit FormData
  | key, .str s, fd =>
    let result := w.text_input (labelOf key) s ("field_" ++ key)
    .ok (if result = "" then fd else dictInsert key (.str result) fd)
  | key, .bool b, fd =>
    .ok (dictInsert key (.bool (w.checkbox (labelOf key) b ("bool_" ++ key))) fd)
  | key, .int n, fd =>
    .ok (dictInsert key (.int (w.number_input_int (labelOf key) n ("num_" ++ key))) fd)
  | key, .float r, fd =>
    .ok (dictInsert key (.float (w.number_input_float (labelOf key) r ("num_" ++ key))) fd)
  | key, .list items, fd =>
    if items.all isStrY then
      let result := w.multiselect (labelOf key) (items.filterMap getStr) ("multi_" ++ key)
      .ok (if result.isEmpty then fd else dictInsert key (.list (result.map .str)) fd)
    else .ok fd
  | key, .map m, fd =>
    if _is_category_structure m then _render_category_tabs w key m fd
    else
      match _render_nested_entries w key m fd [] with
      | .error e => .error e
      | .ok (fd', nested_data) =>
        .ok (if nested_data.isEmpty then fd' else dictInsert key (.map nested_data) fd')

/-- The `for nested_key, nested_value in value.items()` loop of
`_render_nested_object`, threading the form state and accumulating
`nested_data`. -/
def _render_nested_entries (w : Widgets) (parentKey : String) :
    List (String × Yaml) → FormData → FormData → Except Unit (FormData × FormData)
  | [], fd, nested_data => .ok (fd, nested_data)
  | (nk, nv) :: rest, fd, nested_data =>
    match _render_field w (parentKey ++ "_" ++ nk) nv fd with
    | .error e => .error e
    | .ok fd1 =>
      match dictPop (parentKey ++ "_" ++ nk) fd1 with
      | (some v, fd2) =>
        _render_nested_entries w parentKey rest fd2 (dictInsert nk v nested_data)
      | (none, _) => _render_nested_entries w parentKey rest fd1 nested_data

end

/-- `FormGenerator._render_nested_object` (lines 111-122): recurse into each
sub-key under the composite key "parent_child", pop each rendered result out
of the form state into `nested_data`, and store `nested_data` under `key`
only when non-empty.  (Inlined in the mapping case of `_render_field`;
restated here with its source name.) -/
def _render_nested_object (w : Widgets) (key : String) (value : List (String × Yaml))
    (fd : FormData) : Except Unit FormData :=
  match _render_nested_entries w key value fd [] with
  | .error e => .error e
  | .ok (fd', nested_data) =>
    .ok (if nested_data.isEmpty then fd' else dictInsert key (.map nested_data) fd')

/-- A mapping that is not a category structure renders as a nested panel. -/
theorem render_field_map_eq (w : Widgets) (key : String) (m : List (String × Yaml))
    (fd : FormData) (h : _is_category_structure m = false) :
    _render_field w key (.map m) fd = _render_nested_object w key m fd := by
  simp [_render_field, _render_nested_object, h]

/-- The `for key, value in project_data.items()` loop of
`FormGenerator.render_form` (lines 50-51). -/
def _render_fields_loop (w : Widgets) : List (String × Yaml) → FormData → Except Unit FormData
  | [], fd => .ok fd
  | (k, v) :: rest, fd =>
    match _render_field w k v fd with
    | .error e => .error e
    | .ok fd' => _render_fields_loop w rest fd'

/-- `FormGenerator.render_form` (lines 41-53): nothing to render without a
truthy template; otherwise unwrap through `root_key` when truthy and render
every top-level field into a fresh form state.  Subscripting or iterating a
value of the wrong shape raises (`.error`). -/
def render_form (w : Widgets) (st : GenState) : Except Unit FormData :=
  match st.template with
  | none => .ok []
  | some t =>
    if pyTruthy t = false then .ok []
    else
      let project_data : Option Yaml :=
        match st.root_key with
        | some r =>
          if r = "" then some t
          else
            match t with
            | .map m => keyLookup r m
            | _ => none
        | none => some t
      match project_data with
      | none => .error ()
      | some (.map m) => _render_fields_loop w m []
      | some _ => .error ()

/-- Widgets that leave every field at its loaded default: text, checkbox and
number inputs return the template value, multiselects start empty. -/
def wDefault : Widgets where
  text_input := fun _ v _ => v
  checkbox := fun _ v _ => v
  number_input_int := fun _ v _ => v
  number_input_float := fun _ v _ => v
  multiselect := fun _ _ _ => []

example :
    _render_field wDefault "k" (.map [("a", .str "x"), ("b", .map [("c", .int 3)])]) [] =
      .ok [("k", Yaml.map [("a", .str "x"), ("b", .map [("c", .int 3)])])] := by
  rfl

/-- A value is extracted by `getListY` exactly when it is a sequence. -/
theorem getListY_eq_some (v : Yaml) (l : List Yaml) : getListY v = some l ↔ v = .list l := by
  cases v <;> simp [getListY]

/-- Counting the sequence-valued entries of a mapping equals the length of the
`list_values` selection made by `_is_category_structure`. -/
theorem length_filterMap_getListY (m : List (String × Yaml)) :
    ((m.map Prod.snd).filterMap getListY).length =
      m.countP (fun p => (getListY p.2).isSome) := by
  induction m with
  | nil => rfl
  | cons p rest ih =>
    rcases p with ⟨k, v⟩
    rcases hv : getListY v with _ | l <;>
      simp [hv, List.countP_cons, ih, -List.filterMap_map]

/-- C2 (corrected).  On a YAML parse error `load_template` returns `False`
and leaves the whole instance state untouched; on a successful parse whose
root is not a mapping it returns `False` and leaves `root_key` and
`key_order` untouched, but it has already overwritten `self.template` with
the freshly parsed non-mapping value (the assignment precedes the
`isinstance` check). -/
theorem load_template_failure (st : GenState) :
    load_template (.error ()) st = (false, st) ∧
    ∀ v, isMapY v = false →
      load_template (.ok v) st = (false, { st with template := some v }) := by
  refine ⟨rfl, fun v hv => ?_⟩
  cases v <;> first
    | rfl
    | exact absurd hv (by simp [isMapY])

/-- C2 witness for `load_template_failure` at a concrete state and value. -/
theorem load_template_failure_witness :
    load_template (.error ()) initState = (false, initState) ∧
    (isMapY (.list [.str "item1"]) = false ∧
      load_template (.ok (.list [.str "item1"])) initState =
        (false, { initState with template := some (.list [.str "item1"]) })) :=
  ⟨(load_template_failure initState).1,
    rfl, (load_template_failure initState).2 (.list [.str "item1"]) rfl⟩

/-- C2 counterexample: loading the non-mapping document `[item1, item2]`
over a previously installed template returns `False` as claimed, but the
stored template is NOT unchanged — it now holds the parsed list. -/
theorem load_template_nonmapping_overwrites :
    load_template (.ok (.list [.str "item1", .str "item2"]))
        { template := some (.map [("a", .int 1)]), root_key := none,
          key_order := ["a"], form_data := [] } =
      (false,
        { template := some (.list [.str "item1", .str "item2"]), root_key := none,
          key_order := ["a"], form_data := [] }) ∧
    some (Yaml.list [.str "item1", .str "item2"]) ≠ some (Yaml.map [("a", .int 1)]) := by
  exact ⟨rfl, by simp⟩

/-- C4 (confirmed).  On any successfully parsed mapping: a single key whose
value is itself a mapping becomes `root_key` with `key_order` the inner
mapping's keys in order; otherwise `root_key` is `None` and `key_order` is
the mapping's own keys in order. -/
theorem load_template_structure (st : GenState) (m : List (String × Yaml)) :
    (∀ k inner, m = [(k, .map inner)] →
      load_template (.ok (.map m)) st =
        (true,
          { st with
              template := some (.map m), root_key := some k,
              key_order := inner.map Prod.fst })) ∧
    ((¬ ∃ k inner, m = [(k, .map inner)]) →
      load_template (.ok (.map m)) st =
        (true,
          { st with
              template := some (.map m), root_key := none,
              key_order := m.map Prod.fst })) := by
  constructor
  · rintro k inner rfl
    rfl
  · intro h
    rcases m with _ | ⟨⟨k, v⟩, _ | ⟨e2, rest⟩⟩
    · rfl
    · cases v with
      | map inner => exact absurd ⟨k, inner, rfl⟩ h
      | str s => rfl
      | bool b => rfl
      | int n => rfl
      | float r => rfl
      | list l => rfl
    · cases v <;> rfl

/-- C4 witness for `load_template_structure`: the wrapped and the flat case
at concrete inputs. -/
theorem load_template_structure_witness :
    load_template (.ok (.map [("Project", .map [("name", .str "Demo")])])) initState =
      (true,
        { initState with
            template := some (.map [("Project", .map [("name", .str "Demo")])]),
            root_key := some "Project", key_order := ["name"] }) ∧
    load_template (.ok (.map [("name", .str "Test"), ("version", .str "1.0")])) initState =
      (true,
        { initState with
            template := some (.map [("name", .str "Test"), ("version", .str "1.0")]),
            root_key := none, key_order := ["name", "version"] }) :=
  ⟨(load_template_structure initState [("Project", .map [("name", .str "Demo")])]).1
      "Project" [("name", .str "Demo")] rfl,
    (load_template_structure initState [("name", .str "Test"), ("version", .str "1.0")]).2
      (by rintro ⟨k, inner, h⟩; simp at h)⟩

/-- C5 (confirmed).  A mapping value is classified as a category structure
exactly when at least two of its values are sequences and at least one of
its values is a non-empty sequence whose first element is a mapping carrying
a "name" key; and the flat example (one plain string sequence plus one
nested mapping) is not a category structure. -/
theorem is_category_structure_iff :
    (∀ m : List (String × Yaml),
      _is_category_structure m = true ↔
        (2 ≤ m.countP (fun p => (getListY p.2).isSome) ∧
          ∃ p ∈ m, ∃ l, p.2 = Yaml.list l ∧ l ≠ [] ∧
            ∃ mm, l.head? = some (.map mm) ∧ (keyLookup "name" mm).isSome = true)) ∧
    _is_category_structure
      [("simple_list", .list [.str "item1", .str "item2"]),
       ("nested_obj", .map [("key", .str "value")])] = false := by
  constructor
  · intro m
    unfold _is_category_structure
    rw [Bool.and_eq_true, decide_eq_true_iff, length_filterMap_getListY, List.any_eq_true]
    constructor
    · rintro ⟨hlen, arr, harr, hprop⟩
      rw [List.mem_filterMap] at harr
      obtain ⟨v, hv, hget⟩ := harr
      rw [List.mem_map] at hv
      obtain ⟨p, hp, rfl⟩ := hv
      refine ⟨hlen, p, hp, arr, (getListY_eq_some _ _).mp hget, ?_, ?_⟩
      · rcases arr with _ | ⟨hd, tl⟩
        · simp at hprop
        · simp
      · rcases arr with _ | ⟨hd, tl⟩
        · simp at hprop
        · rcases hd with s | b | n | r | l | mm <;> simp_all
    · rintro ⟨hlen, p, hp, l, hl, hne, mm, hhead, hname⟩
      refine ⟨hlen, l, ?_, ?_⟩
      · rw [List.mem_filterMap]
        exact ⟨p.2, List.mem_map_of_mem Prod.snd hp, (getListY_eq_some _ _).mpr hl⟩
      · rcases l with _ | ⟨hd, tl⟩
        · exact absurd rfl hne
        · simp only [List.head?_cons, Option.some.injEq] at hhead
          subst hhead
          simp [hname]
  · rfl

/-- Python truthiness of the recorded root key (`if self.root_key:` in
`get_structured_data`): `None` and the empty string are both falsy. -/
def rootKeyTruthy : Option String → Bool
  | none => false
  | some r => r != ""

/-- `FormGenerator.get_structured_data` (`src/form_generator.py` lines
162-178).  Empty form data short-circuits to an empty dict.  Otherwise
`ordered_data` collects, by successive dict insertion (the comprehension's
evaluation order), the `key_order` keys present in the form data; the
remaining form-data entries are then inserted in their iteration order; the
result is wrapped under `root_key` when that is truthy. -/
def get_structured_data (st : GenState) : List (String × Yaml) :=
  if st.form_data.isEmpty then []
  else
    let ordered_data :=
      st.key_order.foldl
        (fun acc k =>
          match keyLookup k st.form_data with
          | some v => dictInsert k v acc
          | none => acc) []
    let merged :=
      (st.form_data.filter (fun p => (keyLookup p.1 ordered_data).isNone)).foldl
        (fun acc p => dictInsert p.1 p.2 acc) ordered_data
    if rootKeyTruthy st.root_key then [(st.root_key.getD "", .map merged)]
    else merged

/-- The behaviour claim C6 ascribes to `get_structured_data`, read off the
spec's words: the `key_order` keys present in the form state first, in
`key_order` sequence, then the remaining form-state entries in iteration
order, and the result wrapped under `root_key` whenever one was recorded. -/
def claimStructuredData (st : GenState) : List (String × Yaml) :=
  let ordered :=
    st.key_order.filterMap (fun k => (keyLookup k st.form_data).map (fun v => (k, v)))
  let body := ordered ++ st.form_data.filter (fun p => (keyLookup p.1 ordered).isNone)
  match st.root_key with
  | some r => [(r, .map body)]
  | none => body

/-- Lookup in a concatenation prefers the first list. -/
theorem keyLookup_append (k : String) (l1 l2 : FormData) :
    keyLookup k (l1 ++ l2) =
      (match keyLookup k l1 with
       | some v => some v
       | none => keyLookup k l2) := by
  induction l1 with
  | nil => simp [keyLookup]
  | cons p rest ih =>
    rcases p with ⟨k', v'⟩
    by_cases h : k' = k <;> simp [keyLookup, h, ih]

/-- Inserting an absent key appends the binding at the end. -/
theorem dictInsert_of_absent (k : String) (v : Yaml) (l : FormData)
    (h : keyLookup k l = none) : dictInsert k v l = l ++ [(k, v)] := by
  induction l with
  | nil => rfl
  | cons p rest ih =>
    rcases p with ⟨k', v'⟩
    simp only [keyLookup] at h
    by_cases hk : k' = k
    · simp [hk] at h
    · simp only [if_neg hk] at h
      simp [dictInsert, hk, ih h]

/-- A key with no binding in the list looks up to nothing. -/
theorem keyLookup_eq_none (k : String) (l : FormData) (h : ∀ p ∈ l, p.1 ≠ k) :
    keyLookup k l = none := by
  induction l with
  | nil => rfl
  | cons p rest ih =>
    rcases p with ⟨k', v'⟩
    have hk : k' ≠ k := h (k', v') (by simp)
    simp [keyLookup, hk, ih (fun q hq => h q (by simp [hq]))]

/-- In a dict with pairwise-distinct keys every entry is found by lookup. -/
theorem keyLookup_of_mem_nodup (l : FormData) (p : String × Yaml)
    (hnd : (l.map Prod.fst).Nodup) (hp : p ∈ l) : keyLookup p.1 l = some p.2 := by
  induction l with
  | nil => simp at hp
  | cons q rest ih =>
    rcases q with ⟨k', v'⟩
    rcases List.mem_cons.mp hp with rfl | hmem
    · simp [keyLookup]
    · have hk : k' ≠ p.1 := by
        intro hkeq
        have : p.1 ∈ rest.map Prod.fst := List.mem_map_of_mem Prod.fst hmem
        rw [List.map_cons, List.nodup_cons] at hnd
        exact hnd.1 (hkeq ▸ this)
      simp [keyLookup, hk, ih (by rw [List.map_cons, List.nodup_cons] at hnd; exact hnd.2) hmem]

/-- Filtering with a predicate that keeps every binding of a key does not
change that key's lookup. -/
theorem keyLookup_filter (k : String) (l : FormData) (q : String × Yaml → Bool)
    (h : ∀ p ∈ l, p.1 = k → q p = true) :
    keyLookup k (l.filter q) = keyLookup k l := by
  induction l with
  | nil => rfl
  | cons p rest ih =>
    rcases p with ⟨k', v'⟩
    have ih' := ih (fun r hr => h r (by simp [hr]))
    by_cases hk : k' = k
    · rw [List.filter_cons, h (k', v') (by simp) hk]
      simp [keyLookup, hk]
    · rw [List.filter_cons]
      rcases hq : q (k', v') with _ | _
      · simp only [Bool.false_eq_true, if_false]
        rw [ih']
        simp [keyLookup, hk]
      · simp only [if_true]
        simp [keyLookup, hk, ih']

/-- The `ordered_data` comprehension of `get_structured_data`, written
directly: the present `key_order` keys with their form-data values. -/
def orderedOf (key_order : List String) (fd : FormData) : FormData :=
  key_order.filterMap (fun k => (keyLookup k fd).map (fun v => (k, v)))

/-- Keys of `orderedOf`: the `key_order` keys present in the form data. -/
theorem orderedOf_keys (key_order : List String) (fd : FormData) :
    (orderedOf key_order fd).map Prod.fst =
      key_order.filter (fun k => (keyLookup k fd).isSome) := by
  induction key_order with
  | nil => rfl
  | cons k rest ih =>
    rcases hv : keyLookup k fd with _ | v <;> simp [orderedOf, hv, ih] <;>
      simpa [orderedOf] using ih

/-- Lookup in `orderedOf` agrees with the form data on `key_order` keys and
misses elsewhere. -/
theorem keyLookup_orderedOf (k : String) (key_order : List String) (fd : FormData) :
    keyLookup k (orderedOf key_order fd) =
      if key_order.contains k then keyLookup k fd else none := by
  induction key_order with
  | nil => simp [orderedOf, keyLookup]
  | cons k0 rest ih =>
    rcases hv : keyLookup k0 fd with _ | v
    · by_cases hk : k0 = k
      · subst hk
        rw [show orderedOf (k0 :: rest) fd = orderedOf rest fd by
          simp [orderedOf, List.filterMap_cons, hv]]
        rw [ih]
        by_cases hm : rest.contains k0 <;> simp [hm, hv]
      · rw [show orderedOf (k0 :: rest) fd = orderedOf rest fd by
          simp [orderedOf, List.filterMap_cons, hv]]
        rw [ih]
        simp [List.contains_cons, hk, show ¬ k = k0 from fun h => hk h.symm]
    · by_cases hk : k0 = k
      · subst hk
        rw [show orderedOf (k0 :: rest) fd = (k0, v) :: orderedOf rest fd by
          simp [orderedOf, List.filterMap_cons, hv]]
        simp [keyLookup, hv]
      · rw [show orderedOf (k0 :: rest) fd = (k0, v) :: orderedOf rest fd by
          simp [orderedOf, List.filterMap_cons, hv]]
        simp only [keyLookup, if_neg hk]
        rw [ih]
        simp [List.contains_cons, hk, show ¬ k = k0 from fun h => hk h.symm]

/-- The `ordered_data` comprehension fold equals appending `orderedOf`,
provided the accumulator is disjoint from the keys still to come. -/
theorem foldl_ordered_eq (fd : FormData) :
    ∀ (key_order : List String) (acc : FormData),
      (∀ k ∈ key_order, keyLookup k acc = none) → key_order.Nodup →
      key_order.foldl
        (fun acc k =>
          match keyLookup k fd with
          | some v => dictInsert k v acc
          | none => acc) acc = acc ++ orderedOf key_order fd := by
  intro korder
  induction korder with
  | nil => intro acc _ _; simp [orderedOf]
  | cons k rest ih =>
    intro acc hacc hnd
    rcases hv : keyLookup k fd with _ | v
    · rw [List.foldl_cons]
      rw [show (match keyLookup k fd with
            | some v => dictInsert k v acc
            | none => acc) = acc by rw [hv]]
      rw [ih acc (fun k' hk' => hacc k' (by simp [hk'])) (List.nodup_cons.mp hnd).2]
      rw [show orderedOf (k :: rest) fd = orderedOf rest fd by
        simp [orderedOf, List.filterMap_cons, hv]]
    · rw [List.foldl_cons]
      rw [show (match keyLookup k fd with
            | some v => dictInsert k v acc
            | none => acc) = dictInsert k v acc by rw [hv]]
      rw [dictInsert_of_absent k v acc (hacc k (by simp))]
      rw [ih (acc ++ [(k, v)]) ?fresh (List.nodup_cons.mp hnd).2]
      · rw [show orderedOf (k :: rest) fd = (k, v) :: orderedOf rest fd by
          simp [orderedOf, List.filterMap_cons, hv]]
        simp
      case fresh =>
        intro k' hk'
        rw [keyLookup_append, hacc k' (by simp [hk'])]
        have hne : k ≠ k' := by
          rintro rfl
          exact (List.nodup_cons.mp hnd).1 hk'
        simp [keyLookup, hne]

/-- Folding dict insertions of fresh, pairwise-distinct keys appends them. -/
theorem foldl_insert_fresh :
    ∀ (rest : List (String × Yaml)) (acc : FormData),
      (∀ p ∈ rest, keyLookup p.1 acc = none) → (rest.map Prod.fst).Nodup →
      rest.foldl (fun acc p => dictInsert p.1 p.2 acc) acc = acc ++ rest := by
  intro rest
  induction rest with
  | nil => intro acc _ _; simp
  | cons p tail ih =>
    intro acc hacc hnd
    rw [List.foldl_cons, dictInsert_of_absent p.1 p.2 acc (hacc p (by simp))]
    rw [ih (acc ++ [(p.1, p.2)]) ?fresh ?nd]
    · simp
    case fresh =>
      intro q hq
      rw [keyLookup_append, hacc q (by simp [hq])]
      have hne : p.1 ≠ q.1 := by
        intro hkeq
        rw [List.map_cons, List.nodup_cons] at hnd
        exact hnd.1 (hkeq ▸ List.mem_map_of_mem Prod.fst hq)
      simp [keyLookup, hne]
    case nd =>
      rw [List.map_cons, List.nodup_cons] at hnd
      exact hnd.2

/-- Keys of the dict filtered to keys outside `key_order`: filter the keys. -/
theorem map_fst_filter_contains (key_order : List String) (fd : FormData) :
    (fd.filter (fun p => !key_order.contains p.1)).map Prod.fst =
      (fd.map Prod.fst).filter (fun k => !key_order.contains k) := by
  induction fd with
  | nil => rfl
  | cons p rest ih =>
    by_cases hq : p.1 ∈ key_order <;> simp [List.filter_cons, hq] <;> simpa using ih

/-- C6 counterexample.  With a recorded root key but an empty form state,
`get_structured_data` short-circuits to the empty dict WITHOUT the root-key
wrapper, while the claimed behaviour ("wrapped under root_key whenever a
root_key was recorded") produces the wrapped singleton. -/
theorem get_structured_data_empty_cex :
    get_structured_data
        { template := none, root_key := some "Project", key_order := ["name"],
          form_data := [] } = [] ∧
    claimStructuredData
        { template := none, root_key := some "Project", key_order := ["name"],
          form_data := [] } = [("Project", .map [])] ∧
    ([] : List (String × Yaml)) ≠ [("Project", Yaml.map [])] :=
  ⟨rfl, rfl, by simp⟩

/-- C6 (corrected).  For a non-empty form state with duplicate-free keys and
duplicate-free `key_order` (as every state the loader builds satisfies),
`get_structured_data` emits the `key_order` keys present in the form state
first, in `key_order` sequence, then the remaining form-state keys in their
iteration order, binding every key to its form-state value; the result is
wrapped under `root_key` only when the recorded root key is truthy.  (An
empty form state instead yields an empty dict with no wrapper — the
counterexample above.) -/
theorem get_structured_data_spec (st : GenState)
    (h0 : st.form_data ≠ []) (h1 : (st.form_data.map Prod.fst).Nodup)
    (h2 : st.key_order.Nodup) :
    ∃ body : FormData,
      get_structured_data st =
        (if rootKeyTruthy st.root_key then [(st.root_key.getD "", .map body)] else body) ∧
      body.map Prod.fst =
        st.key_order.filter (fun k => (keyLookup k st.form_data).isSome) ++
          (st.form_data.map Prod.fst).filter (fun k => !st.key_order.contains k) ∧
      (∀ k, keyLookup k body = keyLookup k st.form_data) := by
  have hord :
      st.key_order.foldl
        (fun acc k =>
          match keyLookup k st.form_data with
          | some v => dictInsert k v acc
          | none => acc) [] = orderedOf st.key_order st.form_data := by
    simpa using foldl_ordered_eq st.form_data st.key_order [] (fun k _ => rfl) h2
  have hmemcond : ∀ p ∈ st.form_data,
      ((keyLookup p.1 (orderedOf st.key_order st.form_data)).isNone =
        !st.key_order.contains p.1) := by
    intro p hp
    rw [keyLookup_orderedOf]
    rcases hb : st.key_order.contains p.1 with _ | _
    · rfl
    · rw [if_pos rfl, keyLookup_of_mem_nodup st.form_data p h1 hp]
      rfl
  have hrest_eq :
      st.form_data.filter
          (fun p => (keyLookup p.1 (orderedOf st.key_order st.form_data)).isNone) =
        st.form_data.filter (fun p => !st.key_order.contains p.1) :=
    List.filter_congr hmemcond
  have hfresh : ∀ p ∈ st.form_data.filter (fun p => !st.key_order.contains p.1),
      keyLookup p.1 (orderedOf st.key_order st.form_data) = none := by
    intro p hp
    rcases List.mem_filter.mp hp with ⟨hmem, hcond⟩
    rw [Bool.not_eq_eq_eq_not, Bool.not_true] at hcond
    rw [keyLookup_orderedOf, hcond]
    rfl
  have hndrest :
      ((st.form_data.filter (fun p => !st.key_order.contains p.1)).map Prod.fst).Nodup := by
    rw [map_fst_filter_contains]
    exact h1.sublist (List.filter_sublist _)
  have hfold2 :
      (st.form_data.filter (fun p => !st.key_order.contains p.1)).foldl
          (fun acc p => dictInsert p.1 p.2 acc) (orderedOf st.key_order st.form_data) =
        orderedOf st.key_order st.form_data ++
          st.form_data.filter (fun p => !st.key_order.contains p.1) :=
    foldl_insert_fresh _ _ hfresh hndrest
  refine ⟨orderedOf st.key_order st.form_data ++
    st.form_data.filter (fun p => !st.key_order.contains p.1), ?_, ?_, ?_⟩
  · simp only [get_structured_data]
    rw [if_neg (by simp [h0])]
    rw [hord, hrest_eq, hfold2]
  · rw [List.map_append, orderedOf_keys, map_fst_filter_contains]
  · intro k
    rw [keyLookup_append]
    rcases hor : keyLookup k (orderedOf st.key_order st.form_data) with _ | v
    · simp only [hor]
      rw [keyLookup_orderedOf] at hor
      rcases hm : st.key_order.contains k with _ | _
      · rw [hm, if_neg (by simp)] at hor
        apply keyLookup_filter
        intro p hp hpk
        rw [hpk, hm]
        rfl
      · rw [hm, if_pos rfl] at hor
        rw [hor]
        apply keyLookup_eq_none
        intro p hp hpk
        rcases List.mem_filter.mp hp with ⟨hmem, hcond⟩
        rw [hpk, hm] at hcond
        exact absurd hcond (by simp)
    · simp only [hor]
      rw [keyLookup_orderedOf] at hor
      rcases hm : st.key_order.contains k with _ | _
      · rw [hm, if_neg (by simp)] at hor
        cases hor
      · rw [hm, if_pos rfl] at hor
        exact hor.symm

/-- C6 witness for `get_structured_data_spec` at a concrete state: key "a"
is pulled to the front by `key_order`, "b" follows, and the result is
wrapped under the truthy root key "P". -/
theorem get_structured_data_spec_witness :
    ((([("b", Yaml.int 1), ("a", Yaml.int 2)] : FormData) ≠ [] ∧
        (([("b", Yaml.int 1), ("a", Yaml.int 2)] : FormData).map Prod.fst).Nodup ∧
        (["a"] : List String).Nodup) ∧
      ∃ body : FormData,
        get_structured_data
            { template := none, root_key := some "P", key_order := ["a"],
              form_data := [("b", Yaml.int 1), ("a", Yaml.int 2)] } =
          (if rootKeyTruthy (some "P") then [("P", Yaml.map body)] else body) ∧
        body.map Prod.fst =
          (["a"] : List String).filter
              (fun k => (keyLookup k [("b", Yaml.int 1), ("a", Yaml.int 2)]).isSome) ++
            (([("b", Yaml.int 1), ("a", Yaml.int 2)] : FormData).map Prod.fst).filter
              (fun k => !(["a"] : List String).contains k) ∧
        (∀ k, keyLookup k body = keyLookup k [("b", Yaml.int 1), ("a", Yaml.int 2)])) :=
  ⟨⟨by simp, by simp, by simp⟩,
    get_structured_data_spec
      { template := none, root_key := some "P", key_order := ["a"],
        form_data := [("b", Yaml.int 1), ("a", Yaml.int 2)] }
      (by simp) (by simp) (by simp)⟩

/-- `cell.replace('"', '""')` over the cell's characters. -/
def escapeQuotes : List Char → List Char
  | [] => []
  | c :: rest => if c = '"' then '"' :: '"' :: escapeQuotes rest else c :: escapeQuotes rest

/-- `ExportUtils._quote_if_needed` (`src/export_utils.py` lines 81-88), with
a Python string as its character list: wrap the cell in double quotes,
doubling internal double quotes, exactly when it contains a comma, a double
quote or a newline; otherwise return it unchanged. -/
def _quote_if_needed (cell : List Char) : List Char :=
  if cell.contains ',' || cell.contains '"' || cell.contains '\n' then
    '"' :: (escapeQuotes cell ++ ['"'])
  else cell

/-- The quote-doubling step equals the characterwise expansion. -/
theorem escapeQuotes_eq_flatten (cell : List Char) :
    escapeQuotes cell = cell.foldr (fun c acc => (if c = '"' then ['"', '"'] else [c]) ++ acc) [] := by
  induction cell with
  | nil => rfl
  | cons c rest ih => by_cases hc : c = '"' <;> simp [escapeQuotes, hc, ih]

/-- C8 (confirmed).  A CSV cell is wrapped in double quotes, with each
internal double quote doubled, if and only if it contains a comma, a double
quote or a newline; otherwise it is emitted unchanged — including the
spec's three examples. -/
theorem quote_if_needed_spec :
    (∀ cell : List Char,
      ((',' ∈ cell ∨ '"' ∈ cell ∨ '\n' ∈ cell) →
        _quote_if_needed cell =
          '"' :: (cell.foldr (fun c acc => (if c = '"' then ['"', '"'] else [c]) ++ acc) []
            ++ ['"'])) ∧
      ((¬ (',' ∈ cell ∨ '"' ∈ cell ∨ '\n' ∈ cell)) → _quote_if_needed cell = cell)) ∧
    _quote_if_needed "a,b".data = "\"a,b\"".data ∧
    _quote_if_needed "a\"b".data = "\"a\"\"b\"".data ∧
    _quote_if_needed "plain".data = "plain".data := by
  refine ⟨fun cell => ⟨fun h => ?_, fun h => ?_⟩, rfl, rfl, rfl⟩
  · have hc : (cell.contains ',' || cell.contains '"' || cell.contains '\n') = true := by
      rcases h with h | h | h <;> simp [h]
    rw [_quote_if_needed, if_pos hc, escapeQuotes_eq_flatten]
  · push_neg at h
    have hc : (cell.contains ',' || cell.contains '"' || cell.contains '\n') = false := by
      simp [h.1, h.2.1, h.2.2]
    rw [_quote_if_needed, if_neg (by simp [h.1, h.2.1, h.2.2])]

/-- The non-greedy span search of the quote-stripping regex
`(['"])(.*?)\1`: from the characters after an opening quote `q`, the
shortest span containing no newline (`.` does not match one) that is closed
by the same quote character, together with the remainder after the closing
quote; `none` when no such closing quote exists on the line. -/
def findQuote (q : Char) : List Char → Option (List Char × List Char)
  | [] => none
  | c :: cs =>
    if c = q then some ([], cs)
    else if c = '\n' then none
    else
      match findQuote q cs with
      | some (t, r) => some (c :: t, r)
      | none => none

/-- The left-to-right scan of `re.sub` for that pattern, with explicit fuel
(the input's length suffices, every step consuming at least one character):
at a single or double quote that is closed by the same character on the same
line, emit the enclosed span without its quotes and continue after it;
otherwise emit the character and move on. -/
def cleanAux : Nat → List Char → List Char
  | 0, cs => cs
  | _ + 1, [] => []
  | fuel + 1, c :: cs =>
    if c = '\'' || c = '"' then
      match findQuote c cs with
      | some (t, r) => t ++ cleanAux fuel r
      | none => c :: cleanAux fuel cs
    else c :: cleanAux fuel cs

/-- `ExportUtils._clean_yaml_quotes` (`src/export_utils.py` lines 29-33),
identical to `DynamicFormGenerator._clean_yaml_quotes` (`src/app.py` lines
176-179): `re.sub(r"(['\"])(.*?)\1", r"\2", yaml_str)` — the blanket strip
of every quote pair. -/
def _clean_yaml_quotes (yaml_str : String) : String :=
  String.mk (cleanAux yaml_str.data.length yaml_str.data)

/-- Whether `sub` stands at the front of `s`. -/
def startsWithChars : List Char → List Char → Bool
  | [], _ => true
  | _ :: _, [] => false
  | c :: cs, d :: ds => c == d && startsWithChars cs ds

/-- Whether `sub` occurs contiguously inside `s`. -/
def hasSubstr : List Char → List Char → Bool
  | s, sub =>
    match s with
    | [] => sub.isEmpty
    | _ :: rest => startsWithChars sub s || hasSubstr rest sub

/-- Decimal digits to a number. -/
def digitsToNat (cs : List Char) : Nat :=
  cs.foldl (fun n c => n * 10 + (c.toNat - '0'.toNat)) 0

/-- Modelled from the PyYAML 1.1 scalar resolver, restricted to what the
theorems below evaluate: a plain scalar containing ": " is the scanner
error "mapping values are not allowed here"; all-digit scalars resolve to
integers; the true/false spellings resolve to booleans; anything else stays
a string. -/
def parsePlainScalar (v : List Char) : Option Yaml :=
  if hasSubstr v [':', ' '] then none
  else if v ≠ [] ∧ v.all Char.isDigit then some (.int (digitsToNat v))
  else if ["true", "True", "TRUE"].contains (String.mk v) then some (.bool true)
  else if ["false", "False", "FALSE"].contains (String.mk v) then some (.bool false)
  else some (.str (String.mk v))

/-- A value token: single- or double-quoted (no embedded quotes or escapes —
none occur in the outputs evaluated here), else a plain scalar. -/
def parseValueToken (v : List Char) : Option Yaml :=
  match v with
  | '\'' :: rest =>
    if rest ≠ [] ∧ rest.getLast? = some '\'' ∧ !(rest.dropLast.contains '\'') then
      some (.str (String.mk rest.dropLast))
    else none
  | '"' :: rest =>
    if rest ≠ [] ∧ rest.getLast? = some '"' ∧ !(rest.dropLast.contains '"') then
      some (.str (String.mk rest.dropLast))
    else none
  | _ => parsePlainScalar v

/-- Split a line at the first ": " into key and value text. -/
def splitKeyValue : List Char → Option (List Char × List Char)
  | [] => none
  | ':' :: ' ' :: rest => some ([], rest)
  | c :: rest =>
    match splitKeyValue rest with
    | some (k, v) => some (c :: k, v)
    | none => none

/-- One `key: value` line of a flat block mapping. -/
def parseLine (line : List Char) : Option (String × Yaml) :=
  match splitKeyValue line with
  | some (k, v) =>
    match parseValueToken v with
    | some y => some (String.mk k, y)
    | none => none
  | none => none

/-- Split on newlines. -/
def splitOnNl : List Char → List (List Char)
  | [] => [[]]
  | '\n' :: rest => [] :: splitOnNl rest
  | c :: rest =>
    match splitOnNl rest with
    | l :: ls => (c :: l) :: ls
    | [] => [[c]]

/-- Each line in turn; any failing line fails the document. -/
def parseLines : List (List Char) → Option (List (String × Yaml))
  | [] => some []
  | l :: ls =>
    match parseLine l with
    | none => none
    | some kv =>
      match parseLines ls with
      | none => none
      | some rest => some (kv :: rest)

/-- Modelled from PyYAML `yaml.safe_load`, restricted to the fragment the
theorems below evaluate: a flat block mapping, one `key: value` per line
(blank lines skipped), scalar values per `parseValueToken`. -/
def parseFlatYaml (s : String) : Option (List (String × Yaml)) :=
  parseLines ((splitOnNl s.data).filter (fun l => !l.isEmpty))

/-- Modelled from PyYAML's emitter analysis (`yaml.dump`, block style), for
flat string-valued mappings: whether a string scalar may be emitted plain,
without quotes.  This covers the aspects the concrete inputs below exercise:
a string is not plain-safe when it is empty, contains ": " or " #", starts
with an indicator character, has leading or trailing space, would re-resolve
as a bool/null, or is all digits (would re-resolve as a number). -/
def plainSafe (s : String) : Bool :=
  let cs := s.data
  !s.isEmpty &&
  !hasSubstr cs [':', ' '] &&
  !hasSubstr cs [' ', '#'] &&
  (match cs.head? with
   | some c => !("-?:,[]\x7b\x7d#&*!|>'\"%@` ".data.contains c)
   | none => false) &&
  (match cs.getLast? with
   | some c => !(c == ' ')
   | none => false) &&
  !(["true", "True", "TRUE", "false", "False", "FALSE", "null", "Null", "NULL", "~",
     "yes", "Yes", "YES", "no", "No", "NO", "on", "On", "ON", "off", "Off", "OFF"].contains s) &&
  !cs.all Char.isDigit

/-- Modelled from PyYAML `yaml.dump` with the settings of
`src/export_utils.py` (block style, indent 2, sort_keys=False), restricted
to flat mappings of string scalars: each entry becomes `key: value\n`, the
value emitted plain when `plainSafe` allows and single-quoted otherwise
(no embedded quotes occur in the inputs evaluated here). -/
def dumpFlatStrMap (m : List (String × String)) : String :=
  String.join (m.map (fun p =>
    p.1 ++ ": " ++ (if plainSafe p.2 then p.2 else "'" ++ p.2 ++ "'") ++ "\n"))

/-- `ExportUtils.export_yaml` (`src/export_utils.py` lines 13-27) on the
flat string-valued fragment: the "No data" sentinel for an empty mapping,
otherwise the serialized text post-processed by `_clean_yaml_quotes`. -/
def export_yaml (data : List (String × String)) : String :=
  if data.isEmpty then "No data"
  else _clean_yaml_quotes (dumpFlatStrMap data)

/-- C3 (code bug).  The quote cleanup is a blanket strip: it removes the
quote pair around the scalar `'123'` although those quotes are required (the
cleaned text re-parses as the integer 123, not the string "123"), and it
also strips the quotes around ordinary text such as `"text"` — the exact
case the repository's own test `test_clean_yaml_quotes` asserts must KEEP
its quotes. -/
theorem clean_yaml_quotes_blanket_strip :
    _clean_yaml_quotes "k: '123'\n" = "k: 123\n" ∧
    parseFlatYaml "k: '123'\n" = some [("k", Yaml.str "123")] ∧
    parseFlatYaml "k: 123\n" = some [("k", Yaml.int 123)] ∧
    Yaml.str "123" ≠ Yaml.int 123 ∧
    _clean_yaml_quotes "regular: \"text\"\n" = "regular: text\n" :=
  ⟨rfl, rfl, rfl, by simp, rfl⟩

/-- C1 (code bug).  The round-trip invariant fails: the template `k: "a: b"`
loads successfully, rendering with unedited defaults reproduces the form
state `k ↦ "a: b"`, the serializer emits `k: 'a: b'\n` (which would re-parse
to the same mapping), but `_clean_yaml_quotes` strips the required quotes,
and the exported text `k: a: b\n` no longer parses at all ("mapping values
are not allowed here"). -/
theorem export_roundtrip_bug :
    load_template (.ok (.map [("k", .str "a: b")])) initState =
      (true,
        { initState with
            template := some (.map [("k", .str "a: b")]),
            root_key := none, key_order := ["k"] }) ∧
    _render_field wDefault "k" (.str "a: b") [] = .ok [("k", Yaml.str "a: b")] ∧
    dumpFlatStrMap [("k", "a: b")] = "k: 'a: b'\n" ∧
    parseFlatYaml "k: 'a: b'\n" = some [("k", Yaml.str "a: b")] ∧
    export_yaml [("k", "a: b")] = "k: a: b\n" ∧
    parseFlatYaml "k: a: b\n" = none :=
  ⟨rfl, rfl, rfl, rfl, rfl, rfl⟩

/-- A found match is an item of the list whose formatted label is the
display string. -/
theorem find_first_match_mem (d : String) (items : List Yaml) (it : Yaml)
    (h : _find_first_match d items = some it) :
    it ∈ items ∧ _format_item_display it = d := by
  induction items with
  | nil => cases h
  | cons it0 rest ih =>
    rw [_find_first_match] at h
    by_cases hd : _format_item_display it0 = d
    · rw [if_pos hd] at h
      cases h
      exact ⟨List.mem_cons_self _ _, hd⟩
    · rw [if_neg hd] at h
      rcases ih h with ⟨hmem, hfmt⟩
      exact ⟨List.mem_cons_of_mem _ hmem, hfmt⟩

/-- If some item formats to the display string, the search finds one. -/
theorem find_first_match_isSome (d : String) (items : List Yaml)
    (h : ∃ it ∈ items, _format_item_display it = d) :
    (_find_first_match d items).isSome = true := by
  induction items with
  | nil => simp at h
  | cons it0 rest ih =>
    rw [_find_first_match]
    by_cases hd : _format_item_display it0 = d
    · rw [if_pos hd]; rfl
    · rw [if_neg hd]
      rcases h with ⟨it, hmem, hfmt⟩
      rcases List.mem_cons.mp hmem with rfl | hmem'
      · exact absurd hfmt hd
      · exact ih ⟨it, hmem', hfmt⟩

/-- The selection loop of `_map_display_to_objects` is a `filterMap` of the
first-match search. -/
theorem map_display_filterMap (selected : List String) (items : List Yaml) :
    _map_display_to_objects selected items =
      selected.filterMap (fun d => _find_first_match d items) := by
  have haux : ∀ (sel : List String) (acc : List Yaml),
      sel.foldl
        (fun acc d =>
          match _find_first_match d items with
          | some it => acc ++ [it]
          | none => acc) acc =
        acc ++ sel.filterMap (fun d => _find_first_match d items) := by
    intro sel
    induction sel with
    | nil => intro acc; simp
    | cons d rest ih =>
      intro acc
      rcases hf : _find_first_match d items with _ | it
      · rw [List.foldl_cons]
        rw [show (match _find_first_match d items with
              | some it => acc ++ [it]
              | none => acc) = acc by rw [hf]]
        rw [ih acc, List.filterMap_cons, hf]
      · rw [List.foldl_cons]
        rw [show (match _find_first_match d items with
              | some it => acc ++ [it]
              | none => acc) = acc ++ [it] by rw [hf]]
        rw [ih (acc ++ [it]), List.filterMap_cons, hf]
        simp
  rw [_map_display_to_objects]
  rcases hsel : selected with _ | ⟨d, rest⟩
  · rfl
  · rw [if_neg (by simp)]
    exact haux _ []

/-- C7's amended content for `FormGenerator._map_display_to_objects`: each
selected display string contributes the first original item whose formatted
label equals it exactly (as objects, not strings); unmatched display strings
contribute nothing. -/
theorem map_display_to_objects_spec (selected : List String) (items : List Yaml) :
    _map_display_to_objects selected items =
      selected.filterMap (fun d => _find_first_match d items) ∧
    (∀ d it, _find_first_match d items = some it →
      it ∈ items ∧ _format_item_display it = d) :=
  ⟨map_display_filterMap selected items,
   fun d it h => find_first_match_mem d items it h⟩

/-- The category-tab loop of `DynamicFormGenerator._render_category_tabs`
(`src/app.py` lines 97-106): unlike the FormGenerator version, a non-empty
selection is stored AS the selected display strings
(`category_data[cat_key] = selected`), with no mapping back to objects. -/
def app_render_category_entries (w : Widgets) (key : String) :
    List (String × Yaml) → FormData → Except Unit FormData
  | [], category_data => .ok category_data
  | (cat_key, items) :: rest, category_data =>
    match pythonIterate items with
    | none => .error ()
    | some itemsList =>
      let options := itemsList.map _format_item_display
      let selected := w.multiselect ("Select from " ++ _format_tab_name cat_key) options
        ("cat_" ++ key ++ "_" ++ cat_key)
      if selected.isEmpty then app_render_category_entries w key rest category_data
      else
        app_render_category_entries w key rest
          (dictInsert cat_key (.list (selected.map .str)) category_data)

/-- `DynamicFormGenerator._render_category_tabs` (`src/app.py` lines
91-109): store `category_data` under `key` when non-empty. -/
def app_render_category_tabs (w : Widgets) (key : String) (value : List (String × Yaml))
    (fd : FormData) : Except Unit FormData :=
  match app_render_category_entries w key value [] with
  | .error e => .error e
  | .ok category_data =>
    .ok (if category_data.isEmpty then fd else dictInsert key (.map category_data) fd)

/-- Widgets whose multiselects select every offered option (a selection the
real widget permits: the result is a sublist of the options); other fields
keep their defaults. -/
def wAll : Widgets where
  text_input := fun _ v _ => v
  checkbox := fun _ v _ => v
  number_input_int := fun _ v _ => v
  number_input_float := fun _ v _ => v
  multiselect := fun _ opts _ => opts

/-- C7 counterexample.  In the app module's category tabs, selecting the
display string "A (X)" stores the string itself in the form state, not the
original item object `name: A, code: X` the claim describes — while the
FormGenerator version does map it back to the object (last conjunct). -/
theorem app_category_tabs_store_strings :
    app_render_category_tabs wAll "k"
        [("c1", .list [.map [("name", .str "A"), ("code", .str "X")]]),
         ("c2", .list [.map [("name", .str "B")]])] [] =
      .ok [("k", .map [("c1", .list [.str "A (X)"]), ("c2", .list [.str "B"])])] ∧
    Yaml.str "A (X)" ≠ Yaml.map [("name", .str "A"), ("code", .str "X")] ∧
    _map_display_to_objects ["A (X)"] [.map [("name", .str "A"), ("code", .str "X")]] =
      [.map [("name", .str "A"), ("code", .str "X")]] :=
  ⟨rfl, by simp, rfl⟩

/-- Looking up the key just inserted yields the inserted value. -/
theorem keyLookup_dictInsert_self (k : String) (v : Yaml) (l : FormData) :
    keyLookup k (dictInsert k v l) = some v := by
  induction l with
  | nil => simp [dictInsert, keyLookup]
  | cons p rest ih =>
    rcases p with ⟨k', v'⟩
    by_cases hk : k' = k <;> simp [dictInsert, keyLookup, hk, ih]

/-- A list of string constructors passes the all-strings test and projects
back to the strings. -/
theorem map_str_all_isStr (opts : List String) :
    (opts.map Yaml.str).all isStrY = true ∧ (opts.map Yaml.str).filterMap getStr = opts := by
  induction opts with
  | nil => exact ⟨rfl, rfl⟩
  | cons o rest ih => simp [isStrY, getStr, ih.1, ih.2]

/-- C9 (confirmed).  With field key `k` not yet in the form state: a string
field stores an entry exactly when its edited text is non-empty; a
multiselect over a string list stores an entry exactly when its selection is
non-empty; checkbox and number fields always store their edited value,
whatever it is (including `False` and `0`). -/
theorem render_field_omission (w : Widgets) (k : String) (fd : FormData)
    (h : keyLookup k fd = none) :
    (∀ s, ∃ fd', _render_field w k (.str s) fd = .ok fd' ∧
      keyLookup k fd' =
        (if w.text_input (labelOf k) s ("field_" ++ k) = "" then none
         else some (.str (w.text_input (labelOf k) s ("field_" ++ k))))) ∧
    (∀ opts : List String, ∃ fd',
      _render_field w k (.list (opts.map Yaml.str)) fd = .ok fd' ∧
      keyLookup k fd' =
        (if w.multiselect (labelOf k) opts ("multi_" ++ k) = [] then none
         else some (.list ((w.multiselect (labelOf k) opts ("multi_" ++ k)).map Yaml.str)))) ∧
    (∀ b, ∃ fd', _render_field w k (.bool b) fd = .ok fd' ∧
      keyLookup k fd' = some (.bool (w.checkbox (labelOf k) b ("bool_" ++ k)))) ∧
    (∀ n, ∃ fd', _render_field w k (.int n) fd = .ok fd' ∧
      keyLookup k fd' = some (.int (w.number_input_int (labelOf k) n ("num_" ++ k)))) ∧
    (∀ r, ∃ fd', _render_field w k (.float r) fd = .ok fd' ∧
      keyLookup k fd' = some (.float (w.number_input_float (labelOf k) r ("num_" ++ k)))) := by
  refine ⟨fun s => ?_, fun opts => ?_, fun b => ?_, fun n => ?_, fun r => ?_⟩
  · by_cases hres : w.text_input (labelOf k) s ("field_" ++ k) = ""
    · exact ⟨fd, by simp [_render_field, hres], by simp [hres, h]⟩
    · exact ⟨dictInsert k (.str (w.text_input (labelOf k) s ("field_" ++ k))) fd,
        by simp [_render_field, hres],
        by simp [hres, keyLookup_dictInsert_self]⟩
  · have hall := (map_str_all_isStr opts).1
    have hproj := (map_str_all_isStr opts).2
    by_cases hres : w.multiselect (labelOf k) opts ("multi_" ++ k) = []
    · refine ⟨fd, ?_, by simp [hres, h]⟩
      simp only [_render_field, hall, if_pos rfl, hproj]
      simp [hres]
    · refine ⟨dictInsert k
        (.list ((w.multiselect (labelOf k) opts ("multi_" ++ k)).map Yaml.str)) fd, ?_, ?_⟩
      · simp only [_render_field, hall, if_pos rfl, hproj]
        simp [hres]
      · simp [hres, keyLookup_dictInsert_self]
  · exact ⟨_, rfl, keyLookup_dictInsert_self _ _ _⟩
  · exact ⟨_, rfl, keyLookup_dictInsert_self _ _ _⟩
  · exact ⟨_, rfl, keyLookup_dictInsert_self _ _ _⟩

/-- C9 witness for `render_field_omission` at the empty form state: defaults
give an empty multiselect (omitted) and a non-empty text (stored). -/
theorem render_field_omission_witness :
    keyLookup "k" ([] : FormData) = none ∧
    ((∀ s, ∃ fd', _render_field wDefault "k" (.str s) [] = .ok fd' ∧
      keyLookup "k" fd' =
        (if wDefault.text_input (labelOf "k") s ("field_" ++ "k") = "" then none
         else some (.str (wDefault.text_input (labelOf "k") s ("field_" ++ "k"))))) ∧
    (∀ opts : List String, ∃ fd',
      _render_field wDefault "k" (.list (opts.map Yaml.str)) [] = .ok fd' ∧
      keyLookup "k" fd' =
        (if wDefault.multiselect (labelOf "k") opts ("multi_" ++ "k") = [] then none
         else some (.list ((wDefault.multiselect (labelOf "k") opts ("multi_" ++ "k")).map Yaml.str)))) ∧
    (∀ b, ∃ fd', _render_field wDefault "k" (.bool b) [] = .ok fd' ∧
      keyLookup "k" fd' = some (.bool (wDefault.checkbox (labelOf "k") b ("bool_" ++ "k")))) ∧
    (∀ n, ∃ fd', _render_field wDefault "k" (.int n) [] = .ok fd' ∧
      keyLookup "k" fd' = some (.int (wDefault.number_input_int (labelOf "k") n ("num_" ++ "k")))) ∧
    (∀ r, ∃ fd', _render_field wDefault "k" (.float r) [] = .ok fd' ∧
      keyLookup "k" fd' =
        some (.float (wDefault.number_input_float (labelOf "k") r ("num_" ++ "k"))))) :=
  ⟨rfl, render_field_omission wDefault "k" [] rfl⟩

mutual

/-- The literal reading of claim C10: no key at ANY nesting depth — also
inside the elements of stored lists — maps to an empty string, an empty
list, or an empty mapping. -/
def deepNoEmpty : Yaml → Bool
  | .str s => !(s == "")
  | .bool _ => true
  | .int _ => true
  | .float _ => true
  | .list l => !l.isEmpty && deepNoEmptyList l
  | .map m => !m.isEmpty && deepNoEmptyEntries m

/-- `deepNoEmpty` over a list's elements. -/
def deepNoEmptyList : List Yaml → Bool
  | [] => true
  | v :: rest => deepNoEmpty v && deepNoEmptyList rest

/-- `deepNoEmpty` over a mapping's values. -/
def deepNoEmptyEntries : List (String × Yaml) → Bool
  | [] => true
  | (_, v) :: rest => deepNoEmpty v && deepNoEmptyEntries rest

end

mutual

/-- The invariant the renderer maintains on every stored value: non-empty,
recursing through nested mappings.  Elements inside stored lists are
original template items, preserved verbatim, and are not constrained. -/
def neVal : Yaml → Bool
  | .str s => !(s == "")
  | .bool _ => true
  | .int _ => true
  | .float _ => true
  | .list l => !l.isEmpty
  | .map m => !m.isEmpty && neValEntries m

/-- `neVal` over a mapping's values. -/
def neValEntries : List (String × Yaml) → Bool
  | [] => true
  | (_, v) :: rest => neVal v && neValEntries rest

end

/-- `neValEntries` via membership. -/
theorem neValEntries_iff (m : List (String × Yaml)) :
    neValEntries m = true ↔ ∀ p ∈ m, neVal p.2 = true := by
  induction m with
  | nil => simp [neValEntries]
  | cons p rest ih =>
    rcases p with ⟨k, v⟩
    rw [neValEntries, Bool.and_eq_true, ih]
    constructor
    · rintro ⟨h1, h2⟩ q hq
      rcases List.mem_cons.mp hq with rfl | hq'
      · exact h1
      · exact h2 q hq'
    · intro hall
      exact ⟨hall (k, v) (by simp), fun q hq => hall q (by simp [hq])⟩

/-- An entry of `dictInsert k v l` is the new binding or an entry of `l`. -/
theorem mem_dictInsert (k : String) (v : Yaml) (l : FormData) (q : String × Yaml)
    (h : q ∈ dictInsert k v l) : q = (k, v) ∨ q ∈ l := by
  induction l with
  | nil => simpa [dictInsert] using h
  | cons p rest ih =>
    rcases p with ⟨k', v'⟩
    rw [dictInsert] at h
    by_cases hk : k' = k
    · rw [if_pos hk] at h
      rcases List.mem_cons.mp h with rfl | h'
      · exact Or.inl rfl
      · exact Or.inr (by simp [h'])
    · rw [if_neg hk] at h
      rcases List.mem_cons.mp h with rfl | h'
      · exact Or.inr (by simp)
      · rcases ih h' with h'' | h''
        · exact Or.inl h''
        · exact Or.inr (by simp [h''])

/-- What `dictPop` leaves behind consists of entries of the original. -/
theorem dictPop_rest_subset (k : String) (l : FormData) (q : String × Yaml)
    (h : q ∈ (dictPop k l).2) : q ∈ l := by
  induction l with
  | nil => simp [dictPop] at h
  | cons p rest ih =>
    rcases p with ⟨k', v'⟩
    rw [dictPop] at h
    by_cases hk : k' = k
    · rw [if_pos hk] at h
      exact List.mem_cons_of_mem _ h
    · rw [if_neg hk] at h
      rcases List.mem_cons.mp h with rfl | h'
      · exact List.mem_cons_self _ _
      · exact List.mem_cons_of_mem _ (ih h')

/-- What `dictPop` returns was bound in the original. -/
theorem dictPop_some_mem (k : String) (l : FormData) (v : Yaml)
    (h : (dictPop k l).1 = some v) : (k, v) ∈ l := by
  induction l with
  | nil => simp [dictPop] at h
  | cons p rest ih =>
    rcases p with ⟨k', v'⟩
    rw [dictPop] at h
    by_cases hk : k' = k
    · rw [if_pos hk] at h
      simp only [Option.some.injEq] at h
      subst h
      subst hk
      exact List.mem_cons_self _ _
    · rw [if_neg hk] at h
      exact List.mem_cons_of_mem _ (ih h)

/-- A non-empty selection of offered display strings maps back to a
non-empty object list. -/
theorem map_display_ne_nil (selected : List String) (items : List Yaml)
    (hne : selected ≠ [])
    (hsub : ∀ d ∈ selected, d ∈ items.map _format_item_display) :
    _map_display_to_objects selected items ≠ [] := by
  rcases selected with _ | ⟨d, rest⟩
  · exact absurd rfl hne
  · rw [map_display_filterMap, List.filterMap_cons]
    have hd : d ∈ items.map _format_item_display := hsub d (by simp)
    rcases List.mem_map.mp hd with ⟨it, hit, hfmt⟩
    have hsome := find_first_match_isSome d items ⟨it, hit, hfmt⟩
    rcases hf : _find_first_match d items with _ | it'
    · rw [hf] at hsome; cases hsome
    · simp

/-- For option-respecting multiselects, the category loop accumulates only
non-empty object lists. -/
theorem render_category_entries_values (w : Widgets)
    (hw : ∀ label opts key x, x ∈ w.multiselect label opts key → x ∈ opts)
    (key : String) :
    ∀ (entries : List (String × Yaml)) (catData catData' : FormData),
      (∀ p ∈ catData, ∃ l, p.2 = Yaml.list l ∧ l ≠ []) →
      _render_category_entries w key entries catData = .ok catData' →
      ∀ p ∈ catData', ∃ l, p.2 = Yaml.list l ∧ l ≠ [] := by
  intro entries
  induction entries with
  | nil =>
    intro catData catData' hinv h
    rw [_render_category_entries] at h
    cases h
    exact hinv
  | cons e rest ih =>
    rcases e with ⟨cat_key, items⟩
    intro catData catData' hinv h
    simp only [_render_category_entries] at h
    split at h
    · cases h
    · split at h
      · exact ih catData catData' hinv h
      · rename_i itemsList hsel
        refine ih _ _ ?_ h
        intro p hp
        rcases mem_dictInsert _ _ _ _ hp with rfl | hp'
        · refine ⟨_, rfl, ?_⟩
          apply map_display_ne_nil
          · intro hnil
            rw [hnil] at hsel
            exact hsel rfl
          · intro d hd
            exact hw _ _ _ d hd
        · exact hinv p hp'

/-- For option-respecting widgets, `_render_field` stores only `neVal`
values, and the nested-entries loop preserves that on both the form state
and its accumulator. -/
theorem render_field_preserves_ne (w : Widgets)
    (hw : ∀ label opts key x, x ∈ w.multiselect label opts key → x ∈ opts) :
    ∀ (key : String) (v : Yaml) (fd : FormData) (fd' : FormData),
      (∀ p ∈ fd, neVal p.2 = true) → _render_field w key v fd = .ok fd' →
      ∀ p ∈ fd', neVal p.2 = true := by
  intro key v fd
  refine _render_field.induct w
    (fun key v fd => ∀ fd', (∀ p ∈ fd, neVal p.2 = true) →
      _render_field w key v fd = .ok fd' → ∀ p ∈ fd', neVal p.2 = true)
    (fun parentKey entries fd nd => ∀ out,
      (∀ p ∈ fd, neVal p.2 = true) → (∀ p ∈ nd, neVal p.2 = true) →
      _render_nested_entries w parentKey entries fd nd = .ok out →
      (∀ p ∈ out.1, neVal p.2 = true) ∧ (∀ p ∈ out.2, neVal p.2 = true))
    ?str ?bool ?int ?float ?listT ?listF ?cat ?nestErr ?nestOk ?nil
    ?consErr ?consSome ?consNone key v fd
  case str =>
    intro key s fd fd' hfd heq
    simp only [_render_field] at heq
    by_cases hres : w.text_input (labelOf key) s ("field_" ++ key) = ""
    · rw [if_pos hres] at heq
      cases heq
      exact hfd
    · rw [if_neg hres] at heq
      cases heq
      intro p hp
      rcases mem_dictInsert _ _ _ _ hp with rfl | hp'
      · simpa [neVal] using hres
      · exact hfd p hp'
  case bool =>
    intro key b fd fd' hfd heq
    simp only [_render_field] at heq
    cases heq
    intro p hp
    rcases mem_dictInsert _ _ _ _ hp with rfl | hp'
    · rfl
    · exact hfd p hp'
  case int =>
    intro key n fd fd' hfd heq
    simp only [_render_field] at heq
    cases heq
    intro p hp
    rcases mem_dictInsert _ _ _ _ hp with rfl | hp'
    · rfl
    · exact hfd p hp'
  case float =>
    intro key r fd fd' hfd heq
    simp only [_render_field] at heq
    cases heq
    intro p hp
    rcases mem_dictInsert _ _ _ _ hp with rfl | hp'
    · rfl
    · exact hfd p hp'
  case listT =>
    intro key items fd hall fd' hfd heq
    simp only [_render_field, hall, if_pos rfl] at heq
    by_cases hres : (w.multiselect (labelOf key) (items.filterMap getStr)
        ("multi_" ++ key)).isEmpty
    · rw [if_pos hres] at heq
      cases heq
      exact hfd
    · rw [if_neg hres] at heq
      cases heq
      intro p hp
      rcases mem_dictInsert _ _ _ _ hp with rfl | hp'
      · simp only [neVal]
        rcases hsel : w.multiselect (labelOf key) (items.filterMap getStr) ("multi_" ++ key)
          with _ | ⟨x, xs⟩
        · rw [hsel] at hres
          exact absurd rfl hres
        · rfl
      · exact hfd p hp'
  case listF =>
    intro key items fd hall fd' hfd heq
    simp only [_render_field] at heq
    rw [if_neg (by simpa using hall)] at heq
    cases heq
    exact hfd
  case cat =>
    intro key m fd hcat fd' hfd heq
    simp only [_render_field] at heq
    rw [if_pos hcat, _render_category_tabs] at heq
    split at heq
    · cases heq
    · rename_i catData hc
      have hvals := render_category_entries_values w hw key m [] catData
        (by intro p hp; simp at hp) hc
      by_cases hemp : catData.isEmpty
      · rw [if_pos hemp] at heq
        cases heq
        exact hfd
      · rw [if_neg hemp] at heq
        cases heq
        intro p hp
        rcases mem_dictInsert _ _ _ _ hp with rfl | hp'
        · simp only [neVal, Bool.and_eq_true]
          refine ⟨by simpa using hemp, ?_⟩
          rw [neValEntries_iff]
          intro q hq
          rcases hvals q hq with ⟨l, hl, hlne⟩
          rw [hl]
          simpa [neVal] using hlne
        · exact hfd p hp'
  case nestErr =>
    intro key m fd hcat e hne _ fd' hfd heq
    simp only [_render_field] at heq
    rw [if_neg (by simp [hcat])] at heq
    simp only [hne] at heq
    cases heq
  case nestOk =>
    intro key m fd hcat fd1 nestedData hne ih fd' hfd heq
    simp only [_render_field] at heq
    rw [if_neg (by simp [hcat])] at heq
    simp only [hne] at heq
    have hinv := ih (fd1, nestedData) hfd (by intro p hp; simp at hp) hne
    by_cases hemp : nestedData.isEmpty
    · rw [if_pos hemp] at heq
      cases heq
      exact hinv.1
    · rw [if_neg hemp] at heq
      cases heq
      intro p hp
      rcases mem_dictInsert _ _ _ _ hp with rfl | hp'
      · simp only [neVal, Bool.and_eq_true]
        refine ⟨by simpa using hemp, ?_⟩
        rw [neValEntries_iff]
        exact hinv.2
      · exact hinv.1 p hp'
  case nil =>
    intro parentKey fd nd out hfd hnd heq
    rw [_render_nested_entries] at heq
    cases heq
    exact ⟨hfd, hnd⟩
  case consErr =>
    intro parentKey nk nv rest fd nd e hr _ out hfd hnd heq
    simp only [_render_nested_entries, hr] at heq
    cases heq
  case consSome =>
    intro parentKey nk nv rest fd nd fd1 hr v fd2 hpop ih1 ih2 out hfd hnd heq
    simp only [_render_nested_entries, hr, hpop] at heq
    have hfd1 : ∀ p ∈ fd1, neVal p.2 = true := ih1 fd1 hfd hr
    refine ih2 out ?_ ?_ heq
    · intro p hp
      refine hfd1 p (dictPop_rest_subset (parentKey ++ "_" ++ nk) fd1 p ?_)
      rw [hpop]
      exact hp
    · intro p hp
      rcases mem_dictInsert _ _ _ _ hp with rfl | hp'
      · refine hfd1 (parentKey ++ "_" ++ nk, v)
          (dictPop_some_mem (parentKey ++ "_" ++ nk) fd1 v ?_)
        rw [hpop]
      · exact hnd p hp'
  case consNone =>
    intro parentKey nk nv rest fd nd fd1 hr fd2 hpop ih1 ih2 out hfd hnd heq
    simp only [_render_nested_entries, hr, hpop] at heq
    exact ih2 out (ih1 fd1 hfd hr) hnd heq

/-- The top-level fields loop preserves the invariant. -/
theorem render_fields_loop_ne (w : Widgets)
    (hw : ∀ label opts key x, x ∈ w.multiselect label opts key → x ∈ opts) :
    ∀ (entries : List (String × Yaml)) (fd fd' : FormData),
      (∀ p ∈ fd, neVal p.2 = true) → _render_fields_loop w entries fd = .ok fd' →
      ∀ p ∈ fd', neVal p.2 = true := by
  intro entries
  induction entries with
  | nil =>
    intro fd fd' hfd heq
    rw [_render_fields_loop] at heq
    cases heq
    exact hfd
  | cons e rest ih =>
    rcases e with ⟨k, v⟩
    intro fd fd' hfd heq
    simp only [_render_fields_loop] at heq
    rcases hr : _render_field w k v fd with e' | fd1
    · simp only [hr] at heq
      cases heq
    · simp only [hr] at heq
      exact ih fd1 fd' (render_field_preserves_ne w hw k v fd fd1 hfd hr) heq

/-- C10 (corrected).  For any render pass whose multiselect widgets return
sublists of their offered options (as the real widget does), every value the
renderer stores in the form state satisfies `neVal`: no key maps to an empty
string, empty list or empty mapping, recursively through nested mappings —
empty nested-panel and category-tab results are omitted, never stored as
empty mappings.  (The stronger literal reading of the claim, `deepNoEmpty`,
which also looks inside the elements of stored lists, fails: see the
counterexample, where a category item's own empty-string field survives
verbatim into the form state.) -/
theorem render_form_ne (w : Widgets)
    (hw : ∀ label opts key x, x ∈ w.multiselect label opts key → x ∈ opts)
    (st : GenState) (fd : FormData)
    (h : render_form w st = .ok fd) :
    ∀ p ∈ fd, neVal p.2 = true := by
  simp only [render_form] at h
  split at h
  · cases h
    intro p hp
    simp at hp
  · split at h
    · cases h
      intro p hp
      simp at hp
    · split at h
      · cases h
      · rename_i m heq2
        exact render_fields_loop_ne w hw m [] fd (by intro p hp; simp at hp) h
      · cases h

/-- C10 witness for `render_form_ne`: default widgets over a loaded flat
template store the one non-empty string field. -/
theorem render_form_ne_witness :
    (∀ label opts key x, x ∈ wDefault.multiselect label opts key → x ∈ opts) ∧
    render_form wDefault
        { template := some (.map [("name", .str "Demo")]), root_key := none,
          key_order := ["name"], form_data := [] } = .ok [("name", Yaml.str "Demo")] ∧
    (∀ p ∈ [("name", Yaml.str "Demo")], neVal p.2 = true) :=
  ⟨fun _ _ _ x h => absurd h (List.not_mem_nil x),
   rfl,
   render_form_ne wDefault (fun _ _ _ x h => absurd h (List.not_mem_nil x))
     { template := some (.map [("name", .str "Demo")]), root_key := none,
       key_order := ["name"], form_data := [] } [("name", Yaml.str "Demo")] rfl⟩

/-- C10 counterexample.  A category item whose "name" field is the empty
string is preserved verbatim by the selection mapping, so the rendered form
state contains an empty string at a nested depth (inside a stored list's
element), refuting the claim's "no key at any nesting depth maps to an empty
string".  The widget used selects exactly the offered options (a selection
the real multiselect permits, last conjunct). -/
theorem render_deep_empty_cex :
    _render_field wAll "k"
        (.map [("c1", .list [.map [("name", .str "")]]), ("c2", .list [.str "x"])]) [] =
      .ok [("k", .map [("c1", .list [.map [("name", .str "")]]),
                       ("c2", .list [.str "x"])])] ∧
    deepNoEmptyEntries
        [("k", .map [("c1", .list [.map [("name", .str "")]]), ("c2", .list [.str "x"])])] =
      false ∧
    (∀ label opts key x, x ∈ wAll.multiselect label opts key → x ∈ opts) :=
  ⟨rfl, rfl, fun _ _ _ _ h => h⟩
